import Mathlib

/-!
Shallow embedding of the chat-orchestration core of the `database-mcp`
repository: the SQL safety validator (`src/utils/validator.ts`), the MCP tool
registry (`src/mcp/tools.ts`), the schema semantic layer (`src/semantic/index.ts`)
and the chat orchestration loop (`src/orchestration/chat.ts`), together with
theorems settling the frozen claims about them.

External capabilities (the `node-sql-parser` library, the JSON library, the
LLM HTTP client, the database drivers) are modelled as function parameters;
everything written in the repository itself is translated definitionally.
-/

namespace DatabaseMCP

/-! ### JavaScript character classes and regex building blocks

The validator uses three regular expressions:
`/;\s*(DROP|TRUNCATE|DELETE\s+FROM\s+\w+\s*;?\s*$)/i`,
`/LIMIT\s+\d+/i` and `/^SELECT/i`, plus `String.prototype.trim`.
They are compiled here into executable matchers over `List Char`.
-/

/-- JavaScript `\s` (the character class used by `RegExp` and `trim`). -/
def isJsSpace (c : Char) : Bool :=
  let n := c.toNat
  n = 0x20 || n = 0x9 || n = 0xa || n = 0xd || n = 0xb || n = 0xc ||
  n = 0xa0 || n = 0x1680 || (0x2000 ≤ n && n ≤ 0x200a) ||
  n = 0x2028 || n = 0x2029 || n = 0x202f || n = 0x205f || n = 0x3000 || n = 0xfeff

/-- JavaScript `\w`: ASCII letters, digits and underscore. -/
def isJsWord (c : Char) : Bool :=
  ('a' ≤ c && c ≤ 'z') || ('A' ≤ c && c ≤ 'Z') || ('0' ≤ c && c ≤ '9') || c = '_'

/-- JavaScript `\d`: ASCII digits. -/
def isJsDigit (c : Char) : Bool := '0' ≤ c && c ≤ '9'

/-- `\s*`: greedily drop leading whitespace. -/
def dropJsSpaces : List Char → List Char
  | [] => []
  | c :: cs => if isJsSpace c then dropJsSpaces cs else c :: cs

/-- Match a literal pattern case-insensitively (`/i` flag) at the head of the
input, returning the rest of the input on success. -/
def stripCI : List Char → List Char → Option (List Char)
  | [], s => some s
  | _ :: _, [] => none
  | p :: ps, c :: cs => if c.toLower = p.toLower then stripCI ps cs else none

/-- `\s+`: at least one whitespace character, consumed greedily. -/
def stripSpaces1 : List Char → Option (List Char)
  | [] => none
  | c :: cs => if isJsSpace c then some (dropJsSpaces cs) else none

/-- Greedily drop leading `\w` characters. -/
def dropJsWords : List Char → List Char
  | [] => []
  | c :: cs => if isJsWord c then dropJsWords cs else c :: cs

/-- `\w+`: at least one word character, consumed greedily. -/
def stripWords1 : List Char → Option (List Char)
  | [] => none
  | c :: cs => if isJsWord c then some (dropJsWords cs) else none

/-- Greedily drop leading `\d` characters. -/
def dropJsDigits : List Char → List Char
  | [] => []
  | c :: cs => if isJsDigit c then dropJsDigits cs else c :: cs

/-- The `DELETE\s+FROM\s+\w+\s*;?\s*$` alternative of the stacked-statement
pattern.  Greedy matching agrees with the backtracking semantics of the
regex here because each consumed class is disjoint from the literal that
follows it. -/
def matchDeleteTail (s : List Char) : Bool :=
  match stripCI "DELETE".data s with
  | none => false
  | some s1 =>
    match stripSpaces1 s1 with
    | none => false
    | some s2 =>
      match stripCI "FROM".data s2 with
      | none => false
      | some s3 =>
        match stripSpaces1 s3 with
        | none => false
        | some s4 =>
          match stripWords1 s4 with
          | none => false
          | some s5 =>
            match dropJsSpaces s5 with
            | ';' :: rest => (dropJsSpaces rest).isEmpty
            | s6 => s6.isEmpty

/-- After a literal `;`: `\s*(DROP|TRUNCATE|DELETE\s+FROM\s+\w+\s*;?\s*$)`. -/
def matchDangerAfterSemi (s : List Char) : Bool :=
  let s1 := dropJsSpaces s
  (stripCI "DROP".data s1).isSome || (stripCI "TRUNCATE".data s1).isSome ||
    matchDeleteTail s1

/-- Unanchored test of `/;\s*(DROP|TRUNCATE|DELETE\s+FROM\s+\w+\s*;?\s*$)/i`,
as used by `sql.match(...)` in `SQLValidator.validateSafe`. -/
def hasDangerousPattern : List Char → Bool
  | [] => false
  | c :: cs => (c = ';' && matchDangerAfterSemi cs) || hasDangerousPattern cs

/-- `LIMIT\s+\d+` matched at the head of the input. -/
def matchLimitAt (s : List Char) : Bool :=
  match stripCI "LIMIT".data s with
  | none => false
  | some s1 =>
    match stripSpaces1 s1 with
    | none => false
    | some s2 =>
      match s2 with
      | c :: _ => isJsDigit c
      | [] => false

/-- Unanchored test of `/LIMIT\s+\d+/i` (`SQLValidator.addLimit`). -/
def hasLimitClause : List Char → Bool
  | [] => false
  | c :: cs => matchLimitAt (c :: cs) || hasLimitClause cs

/-- Anchored test of `/^SELECT/i`. -/
def startsWithSelectCI (s : List Char) : Bool :=
  (stripCI "SELECT".data s).isSome

/-- JavaScript `String.prototype.trim`: strip `\s` from both ends. -/
def jsTrim (s : String) : String :=
  ⟨((dropJsSpaces ((dropJsSpaces s.data).reverse)).reverse)⟩

/-! ### The SQL parser capability

`SQLValidator` delegates parsing to the external `node-sql-parser` library
(`this.parser.astify(sql)`), which either throws (an `Error` whose `message`
is interpolated into the recorded parse error) or returns one statement
record or an array of statement records.  The fields of a statement record
read by the validator are `type`, `from`, `into.table` and `table`. -/

/-- A `FROM`-list entry as read by `SQLValidator.extractTables`:
only `item.table` is consulted (the `item.as` branch of the source is a
no-op). -/
structure FromItem where
  table : Option String
deriving Repr, DecidableEq

/-- The `into` clause as read by `analyzeStatement` (`stmt.into.table`). -/
structure IntoClause where
  table : Option String
deriving Repr, DecidableEq

/-- One parsed statement, restricted to the fields the validator reads.
(`fromItems` models `stmt.from`, `tableRef` models `stmt.table`.) -/
structure Stmt where
  type : Option String
  fromItems : Option (List FromItem) := none
  into : Option IntoClause := none
  tableRef : Option FromItem := none
deriving Repr, DecidableEq

/-- `astify` output: a single statement or an array of statements. -/
def ParseAst : Type := Stmt ⊕ List Stmt

/-- The external SQL parser capability: returns an AST or throws an error
message. -/
def SQLParser : Type := String → Except String ParseAst

/-! ### SQLValidator (`src/utils/validator.ts`) -/

/-- `SQLAnalysis` (result shape of `SQLValidator.analyze`). -/
structure SQLAnalysis where
  isValid : Bool
  isReadOnly : Bool
  type : String
  tables : List String
  errors : List String
  warnings : List String
deriving Repr, DecidableEq

/-- JavaScript truthiness of a string (`""` is falsy). -/
def strTruthy (s : String) : Bool := !s.isEmpty

/-- JavaScript `String.prototype.toLowerCase`, character by character. -/
def jsToLowerCase (s : String) : String := ⟨s.data.map Char.toLower⟩

/-- `SQLValidator.extractTables`: push `item.table` for every entry that has
a truthy one. -/
def extractTables (items : List FromItem) (tables : List String) : List String :=
  items.foldl
    (fun acc item =>
      match item.table with
      | some t => if strTruthy t then acc ++ [t] else acc
      | none => acc)
    tables

/-- The write-operation set of `analyzeStatement`. -/
def writeOperations : List String :=
  ["insert", "update", "delete", "create", "drop", "alter", "truncate"]

/-- `SQLValidator.analyzeStatement`: classify one statement into the running
`SQLAnalysis` record (early return when `stmt.type` is absent). -/
def analyzeStatement (stmt : Stmt) (result : SQLAnalysis) : SQLAnalysis :=
  match stmt.type with
  | none => result
  | some ty =>
    let t := jsToLowerCase ty
    let ro := if writeOperations.contains t then false else result.isReadOnly
    let tabs :=
      match stmt.fromItems with
      | some items => extractTables items result.tables
      | none => result.tables
    let tabs :=
      match stmt.into with
      | some i =>
        match i.table with
        | some it => if strTruthy it then tabs ++ [it] else tabs
        | none => tabs
      | none => tabs
    let tabs :=
      match stmt.tableRef with
      | some tr => extractTables [tr] tabs
      | none => tabs
    { result with type := t, isReadOnly := ro, tables := tabs }

/-- The default `SQLAnalysis` record built at the top of `analyze`. -/
def initialAnalysis : SQLAnalysis :=
  { isValid := false, isReadOnly := true, type := "unknown",
    tables := [], errors := [], warnings := [] }

/-- `SQLValidator.analyze`: parse and classify; all parse failure is encoded
as data (the `catch` branch records `Parse error: <message>`). -/
def analyze (parser : SQLParser) (sql : String) : SQLAnalysis :=
  match parser sql with
  | .error msg =>
    { initialAnalysis with errors := initialAnalysis.errors ++ ["Parse error: " ++ msg] }
  | .ok ast =>
    let result := { initialAnalysis with isValid := true }
    match ast with
    | .inl stmt => analyzeStatement stmt result
    | .inr stmts =>
      let result :=
        { result with warnings := result.warnings ++ ["Multiple statements detected"] }
      stmts.foldl (fun r s => analyzeStatement s r) result

/-- Result shape of `SQLValidator.validateSafe`. -/
structure SafeCheck where
  safe : Bool
  reason : Option String := none
deriving Repr, DecidableEq

/-- `SQLValidator.validateSafe`. -/
def validateSafe (parser : SQLParser) (sql : String)
    (readOnlyMode : Bool := true) : SafeCheck :=
  let analysis := analyze parser sql
  if !analysis.isValid then
    { safe := false, reason := some (String.intercalate "; " analysis.errors) }
  else if readOnlyMode && !analysis.isReadOnly then
    { safe := false, reason := some "Write operations not allowed in read-only mode" }
  else if hasDangerousPattern sql.data then
    { safe := false, reason := some "Potentially dangerous operation detected" }
  else
    { safe := true }

/-- `SQLValidator.addLimit`. -/
def addLimit (sql : String) (limit : Nat := 1000) : String :=
  let trimmed := jsTrim sql
  if hasLimitClause trimmed.data then
    sql
  else if startsWithSelectCI trimmed.data then
    trimmed ++ " LIMIT " ++ toString limit
  else
    sql

/-! ### Schema metadata (`src/types.ts`), restricted to the fields the core
reads. -/

structure ColumnMetadata where
  name : String
  type : String
  nullable : Bool
  defaultValue : Option String := none
  isPrimaryKey : Bool
  isForeignKey : Bool
deriving Repr, DecidableEq

structure ForeignKeyMetadata where
  name : String
  column : String
  referencedTable : String
  referencedColumn : String
deriving Repr, DecidableEq

structure TableMetadata where
  name : String
  schema : Option String := none
  columns : List ColumnMetadata
  foreignKeys : List ForeignKeyMetadata
  rowCount : Option Nat := none
deriving Repr, DecidableEq

structure DatabaseMetadata where
  name : String
  tables : List TableMetadata
deriving Repr, DecidableEq

/-! ### SchemaSemanticLayer (`src/semantic/index.ts`), the methods used by
the tool registry and the orchestrator. -/

/-- `table.schema ? \x7b schema\x7d.\x7b name\x7d : name` (JS truthiness of
the schema string). -/
def qualifiedName (t : TableMetadata) : String :=
  match t.schema with
  | some s => if strTruthy s then s ++ "." ++ t.name else t.name
  | none => t.name

/-- One column entry of `generateCompactSchema`. -/
def compactColumn (c : ColumnMetadata) : String :=
  let parts := [c.name, c.type]
  let parts := if c.isPrimaryKey then parts ++ ["PK"] else parts
  let parts := if c.isForeignKey then parts ++ ["FK"] else parts
  let parts := if !c.nullable then parts ++ ["NOT NULL"] else parts
  String.intercalate " " parts

/-- `SchemaSemanticLayer.generateCompactSchema`. -/
def generateCompactSchema (metadata : DatabaseMetadata) : String :=
  String.intercalate "\n"
    (metadata.tables.map fun table =>
      qualifiedName table ++ " (" ++
        String.intercalate ", " (table.columns.map compactColumn) ++ ")")

/-- `SchemaSemanticLayer.generateTablesList`. -/
def generateTablesList (metadata : DatabaseMetadata) : List String :=
  metadata.tables.map qualifiedName

/-- `SchemaSemanticLayer.findTable`. -/
def findTable (metadata : DatabaseMetadata) (tableName : String) :
    Option TableMetadata :=
  metadata.tables.find? fun t =>
    t.name == tableName ||
    (match t.schema with
     | some s => strTruthy s && (s ++ "." ++ t.name == tableName)
     | none => false) ||
    tableName.endsWith ("." ++ t.name)

/-! ### The database provider capability (`src/providers/interface.ts`)

Providers are external collaborators (per-engine drivers).  Each capability
used by the tools is a fallible function; tool handlers additionally report
the list of provider invocations they performed, so that theorems can speak
about which capabilities were (not) reached. -/

/-- A JSON-like value, for provider result rows. -/
inductive JsonVal where
  | null
  | bool (b : Bool)
  | num (n : Int)
  | str (s : String)
  | arr (xs : List JsonVal)
  | obj (fields : List (String × JsonVal))
deriving Repr

/-- `QueryResult` (`src/types.ts`). -/
structure QueryResult where
  rows : List JsonVal
  rowCount : Nat
  fields : List (String × String)
deriving Repr

/-- The provider capabilities reached by the registered tools. -/
structure IDatabaseProvider where
  listTables : Option String → Except String (List String)
  describeTable : String → Option String → Except String TableMetadata
  runQuery : String → Except String QueryResult

/-- A record of one provider invocation performed by a tool handler. -/
inductive ProviderCall where
  | listTables (schema : Option String)
  | describeTable (tableName : String) (schema : Option String)
  | runQuery (sql : String)
deriving Repr, DecidableEq

/-! ### MCPToolRegistry (`src/mcp/tools.ts`) -/

/-- One property of a tool's parameter schema (`type`, `description`, and the
`items` element type for array parameters). -/
structure ParamSpec where
  type : String
  description : String
  items : Option String := none
deriving Repr, DecidableEq

/-- A tool's parameter schema (`\x7btype:"object", properties, required\x7d`). -/
structure ToolParameters where
  type : String := "object"
  properties : List (String × ParamSpec)
  required : List String
deriving Repr, DecidableEq

/-- Decoded tool-call arguments.  Parameters that a tool's schema marks
`required` are modelled as present. -/
structure ToolParams where
  schema : Option String := none
  table_name : String := ""
  description : String := ""
  tables : Option (List String) := none
  sql : String := ""
  limit : Option Nat := none
deriving Repr, DecidableEq

/-- Result values returned by the five registered tool handlers. -/
inductive ToolResult where
  | tables (tables : List String) (count : Nat)
  | table (t : TableMetadata)
  | generateSqlAck (message : String) (description : String)
      (suggested : Option (List String))
  | explain (sql : String) (valid : Bool) (type : String) (tables : List String)
      (readOnly : Bool) (errors : List String) (warnings : List String)
  | query (rows : List JsonVal) (rowCount : Nat) (fields : List (String × String))
      (limited : Bool)
deriving Repr

/-- Registry state read by the handler closures at call time
(`this.readOnlyMode`, `this.metadata`). -/
structure RegistryState where
  readOnlyMode : Bool := true
  metadata : Option DatabaseMetadata := none

/-- A handler outcome: the value returned or the error thrown, together with
the provider invocations performed. -/
def HandlerResult : Type := Except String ToolResult × List ProviderCall

/-- The `list_tables` handler. -/
def listTablesHandler (provider : IDatabaseProvider) (st : RegistryState)
    (params : ToolParams) : HandlerResult :=
  match st.metadata with
  | some md =>
    let tables := generateTablesList md
    (.ok (.tables tables tables.length), [])
  | none =>
    match provider.listTables params.schema with
    | .error e => (.error e, [.listTables params.schema])
    | .ok tables => (.ok (.tables tables tables.length), [.listTables params.schema])

/-- The `describe_table` handler. -/
def describeTableHandler (provider : IDatabaseProvider) (st : RegistryState)
    (params : ToolParams) : HandlerResult :=
  let fallback : HandlerResult :=
    match provider.describeTable params.table_name params.schema with
    | .error e => (.error e, [.describeTable params.table_name params.schema])
    | .ok t => (.ok (.table t), [.describeTable params.table_name params.schema])
  match st.metadata with
  | some md =>
    match findTable md params.table_name with
    | some table => (.ok (.table table), [])
    | none => fallback
  | none => fallback

/-- The `generate_sql` handler (a pass-through placeholder). -/
def generateSqlHandler (params : ToolParams) : HandlerResult :=
  (.ok (.generateSqlAck "SQL generation should be handled by the LLM"
      params.description params.tables), [])

/-- The `explain_sql` handler. -/
def explainSqlHandler (parser : SQLParser) (params : ToolParams) : HandlerResult :=
  let analysis := analyze parser params.sql
  (.ok (.explain params.sql analysis.isValid analysis.type analysis.tables
      analysis.isReadOnly analysis.errors analysis.warnings), [])

/-- The `run_sql` handler (`src/mcp/tools.ts` lines 184–210): validate, add a
`LIMIT` for `select` statements, execute through the provider. -/
def runSqlHandler (parser : SQLParser) (provider : IDatabaseProvider)
    (readOnlyMode : Bool) (params : ToolParams) : HandlerResult :=
  let limit := match params.limit with
    | some n => if n = 0 then 1000 else n
    | none => 1000
  let validation := validateSafe parser params.sql readOnlyMode
  if !validation.safe then
    (.error ("SQL validation failed: " ++ validation.reason.getD "undefined"), [])
  else
    let analysis := analyze parser params.sql
    let sql := if analysis.type = "select" then addLimit params.sql limit else params.sql
    match provider.runQuery sql with
    | .error e => (.error e, [.runQuery sql])
    | .ok result =>
      (.ok (.query result.rows result.rowCount result.fields
          (decide (analysis.type = "select"))), [.runQuery sql])

/-- A registered tool: name, description, parameter schema and handler. -/
structure MCPTool where
  name : String
  description : String
  parameters : ToolParameters
  handler : RegistryState → ToolParams → HandlerResult

/-- `registerTools`: the five tools, in `Map` insertion order, with their
parameter schemas as declared in the source. -/
def registerTools (parser : SQLParser) (provider : IDatabaseProvider) :
    List MCPTool :=
  [ { name := "list_tables",
      description := "List all tables in the database with their schemas",
      parameters :=
        { properties :=
            [("schema",
              { type := "string",
                description := "Optional schema name to filter tables" })],
          required := [] },
      handler := fun st params => listTablesHandler provider st params },
    { name := "describe_table",
      description := "Get detailed information about a table structure",
      parameters :=
        { properties :=
            [("table_name",
              { type := "string",
                description := "Name of the table to describe" }),
             ("schema",
              { type := "string", description := "Schema name (optional)" })],
          required := ["table_name"] },
      handler := fun st params => describeTableHandler provider st params },
    { name := "generate_sql",
      description := "Generate SQL query based on natural language description",
      parameters :=
        { properties :=
            [("description",
              { type := "string",
                description := "Natural language description of what to query" }),
             ("tables",
              { type := "array",
                description := "Tables involved in the query",
                items := some "string" })],
          required := ["description"] },
      handler := fun _ params => generateSqlHandler params },
    { name := "explain_sql",
      description := "Explain what a SQL query does in natural language",
      parameters :=
        { properties :=
            [("sql", { type := "string", description := "SQL query to explain" })],
          required := ["sql"] },
      handler := fun _ params => explainSqlHandler parser params },
    { name := "run_sql",
      description := "Execute a SQL query and return results",
      parameters :=
        { properties :=
            [("sql", { type := "string", description := "SQL query to execute" }),
             ("limit",
              { type := "number",
                description := "Maximum number of rows to return (default: 1000)" })],
          required := ["sql"] },
      handler := fun st params => runSqlHandler parser provider st.readOnlyMode params } ]

/-- The registry: its tool map (as an insertion-ordered list with unique
names) and its mutable state. -/
structure MCPToolRegistry where
  tools : List MCPTool
  state : RegistryState

/-- The `MCPToolRegistry` constructor. -/
def MCPToolRegistry.create (parser : SQLParser) (provider : IDatabaseProvider)
    (metadata : Option DatabaseMetadata := none) : MCPToolRegistry :=
  { tools := registerTools parser provider,
    state := { readOnlyMode := true, metadata := metadata } }

/-- `setMetadata`. -/
def MCPToolRegistry.setMetadata (r : MCPToolRegistry) (md : DatabaseMetadata) :
    MCPToolRegistry :=
  { r with state := { r.state with metadata := some md } }

/-- `setReadOnlyMode`. -/
def MCPToolRegistry.setReadOnlyMode (r : MCPToolRegistry) (b : Bool) :
    MCPToolRegistry :=
  { r with state := { r.state with readOnlyMode := b } }

/-- `getTools`: `Array.from(this.tools.values())`. -/
def MCPToolRegistry.getTools (r : MCPToolRegistry) : List MCPTool := r.tools

/-- `getTool`. -/
def MCPToolRegistry.getTool (r : MCPToolRegistry) (name : String) :
    Option MCPTool :=
  r.tools.find? (fun t => t.name == name)

/-- `executeTool`: `ToolNotFound` when absent; handler failures re-signalled
as `Tool execution failed: <message>`. -/
def MCPToolRegistry.executeTool (r : MCPToolRegistry) (name : String)
    (params : ToolParams) : HandlerResult :=
  match r.getTool name with
  | none => (.error ("Tool not found: " ++ name), [])
  | some tool =>
    match tool.handler r.state params with
    | (.error e, calls) => (.error ("Tool execution failed: " ++ e), calls)
    | ok => ok

/-! ### ChatOrchestrator (`src/orchestration/chat.ts`)

The LLM client (an HTTP call) and the JSON library are external
capabilities, collected in `OrchestratorEnv`; the tool registry is the
registry model above.  `chat` returns its outcome, the updated orchestrator
(its mutated message history), and the number of LLM client calls
performed. -/

/-- Message roles. -/
inductive Role where
  | system
  | user
  | assistant
  | tool
deriving Repr, DecidableEq

/-- `ToolCall.function`. -/
structure ToolFunction where
  name : String
  arguments : String
deriving Repr, DecidableEq

/-- A tool call requested by the assistant. -/
structure ToolCall where
  id : String
  function : ToolFunction
deriving Repr, DecidableEq

/-- A conversation message. -/
structure Message where
  role : Role
  content : String
  name : Option String := none
  tool_calls : Option (List ToolCall) := none
  tool_call_id : Option String := none
deriving Repr, DecidableEq

/-- `ChatResponse`, the terminal artifact of one `chat` call. -/
structure ChatResponse where
  response_type : String
  description : String
  data : Option JsonVal := none
  sql : Option String := none
  raw_response : Option String := none
deriving Repr

/-- `ChatOrchestrator.parseResponse`: attempt a structured-JSON decode (the
`decode` capability models `JSON.parse` viewed at the `ChatResponse` shape);
accept it only if both `response_type` and `description` are truthy,
otherwise wrap the raw text. -/
def parseResponse (decode : String → Option ChatResponse) (content : String) :
    ChatResponse :=
  match decode content with
  | some json =>
    if strTruthy json.response_type && strTruthy json.description then json
    else { response_type := "text", description := content, raw_response := some content }
  | none => { response_type := "text", description := content, raw_response := some content }

/-- The external capabilities used by one `chat` call: the LLM client
(`llmClient.chat`, which throws on transport errors) and the JSON library
(`JSON.parse` of tool arguments, `JSON.stringify` of tool results and of
`\x7berror: message\x7d` objects, and the decode inside `parseResponse`). -/
structure OrchestratorEnv where
  client : List Message → List MCPTool → Except String Message
  parseArgs : String → Except String ToolParams
  serializeResult : ToolResult → String
  serializeError : String → String
  decodeResponse : String → Option ChatResponse

/-- One tool call dispatched inside the loop: decode the arguments, execute
the tool, and build the `tool`-role message — the `catch` branch turns any
failure into a `\x7berror: message\x7d` content instead of raising. -/
def dispatchToolCall (env : OrchestratorEnv) (reg : MCPToolRegistry)
    (tc : ToolCall) : Message :=
  match env.parseArgs tc.function.arguments with
  | .error e =>
    { role := .tool, content := env.serializeError e,
      tool_call_id := some tc.id, name := some tc.function.name }
  | .ok args =>
    match (reg.executeTool tc.function.name args).fst with
    | .error e =>
      { role := .tool, content := env.serializeError e,
        tool_call_id := some tc.id, name := some tc.function.name }
    | .ok result =>
      { role := .tool, content := env.serializeResult result,
        tool_call_id := some tc.id, name := some tc.function.name }

/-- `const maxIterations = 5`. -/
def maxIterations : Nat := 5

/-- The outcome of the `while` loop of `chat`: the returned/raised result,
the final message history, and the number of LLM client calls made. -/
structure ChatOutcome where
  result : Except String ChatResponse
  messages : List Message
  llmCalls : Nat

/-- The `while (iterations < maxIterations)` loop of `ChatOrchestrator.chat`,
with the remaining round budget as fuel.  A reply carrying a nonempty
`tool_calls` array dispatches each call in array order and loops; otherwise
the reply text is parsed as the final answer.  Exhausting the budget raises
`Max iterations reached without final response`. -/
def chatLoop (env : OrchestratorEnv) (reg : MCPToolRegistry) :
    Nat → List Message → Nat → ChatOutcome
  | 0, msgs, calls =>
    ⟨.error "Max iterations reached without final response", msgs, calls⟩
  | fuel + 1, msgs, calls =>
    match env.client msgs reg.getTools with
    | .error e => ⟨.error e, msgs, calls + 1⟩
    | .ok response =>
      let msgs' := msgs ++ [response]
      match response.tool_calls with
      | some (tc :: tcs) =>
        chatLoop env reg fuel
          (msgs' ++ (tc :: tcs).map (dispatchToolCall env reg)) (calls + 1)
      | _ => ⟨.ok (parseResponse env.decodeResponse response.content), msgs', calls + 1⟩

/-- The orchestrator instance state (`messages`, `systemPrompt`, `metadata`,
and the owned tool registry). -/
structure ChatOrchestrator where
  toolRegistry : MCPToolRegistry
  metadata : Option DatabaseMetadata := none
  messages : List Message := []
  systemPrompt : String := ""

/-- The system-prompt template of `initializeSystemPrompt`, instantiated with
the schema context and the rendered tool list. -/
def buildSystemPrompt (schemaContext : String) (toolLines : List String) : String :=
  "You are a helpful database assistant that helps users interact with their SQL database using natural language.\n\nDATABASE SCHEMA:\n"
    ++ schemaContext
    ++ "\n\nCAPABILITIES:\nYou have access to the following tools:\n"
    ++ String.intercalate "\n" toolLines
    ++ "\n\nGUIDELINES:\n1. Always validate SQL before execution\n2. Use the explain_sql tool to validate queries before running them\n3. For data queries, use run_sql and format results appropriately\n4. When generating reports or analytics, respond with structured data in this format:\n   \x7b\n     \"response_type\": \"chart\" | \"table\" | \"text\",\n     \"description\": \"human explanation of the data\",\n     \"data\": \x7b ...structured data... \x7d\n   \x7d\n5. For charts, provide data in a format suitable for visualization (labels, values, etc.)\n6. Always be clear about what data you\x27re returning and why\n7. If a query might return large amounts of data, suggest filtering or limiting\n8. Explain your reasoning when constructing complex queries\n\nRESPONSE FORMAT:\n- For simple questions: respond with plain text\n- For data tables: use response_type \"table\" with rows and columns\n- For analytics/trends: use response_type \"chart\" with appropriate chart data\n\nRemember: You are operating in a tool-calling mode. Use the provided tools to access the database."

/-- `initializeSystemPrompt`: rebuild the prompt from the current metadata
and tool catalog, and reset the history to exactly one system message. -/
def initializeSystemPrompt (o : ChatOrchestrator) : ChatOrchestrator :=
  let schemaContext :=
    match o.metadata with
    | some md => generateCompactSchema md
    | none => "No schema loaded yet."
  let prompt := buildSystemPrompt schemaContext
    (o.toolRegistry.getTools.map fun t => "- " ++ t.name ++ ": " ++ t.description)
  { o with systemPrompt := prompt,
           messages := [{ role := .system, content := prompt }] }

/-- The `ChatOrchestrator` constructor (the LLM client capability is passed
per call through `OrchestratorEnv`). -/
def ChatOrchestrator.create (toolRegistry : MCPToolRegistry)
    (metadata : Option DatabaseMetadata := none) : ChatOrchestrator :=
  initializeSystemPrompt { toolRegistry := toolRegistry, metadata := metadata }

/-- `setMetadata`: store the metadata and regenerate the system prompt. -/
def ChatOrchestrator.setMetadata (o : ChatOrchestrator) (md : DatabaseMetadata) :
    ChatOrchestrator :=
  initializeSystemPrompt { o with metadata := some md }

/-- `clearHistory`. -/
def ChatOrchestrator.clearHistory (o : ChatOrchestrator) : ChatOrchestrator :=
  initializeSystemPrompt o

/-- `getHistory` (returns a copy of the message list). -/
def ChatOrchestrator.getHistory (o : ChatOrchestrator) : List Message :=
  o.messages

/-- `ChatOrchestrator.chat`: append the user message, run the bounded loop,
and return the outcome, the mutated orchestrator and the LLM call count. -/
def ChatOrchestrator.chat (env : OrchestratorEnv) (o : ChatOrchestrator)
    (userMessage : String) :
    Except String ChatResponse × ChatOrchestrator × Nat :=
  let msgs := o.messages ++ [{ role := .user, content := userMessage }]
  let out := chatLoop env o.toolRegistry maxIterations msgs 0
  (out.result, { o with messages := out.messages }, out.llmCalls)

/-- Orchestrator states reachable through the public operations. -/
inductive Reachable : ChatOrchestrator → Prop where
  | create (reg : MCPToolRegistry) (md : Option DatabaseMetadata) :
      Reachable (ChatOrchestrator.create reg md)
  | chat (env : OrchestratorEnv) (o : ChatOrchestrator) (u : String) :
      Reachable o → Reachable (ChatOrchestrator.chat env o u).2.1
  | clearHistory (o : ChatOrchestrator) :
      Reachable o → Reachable o.clearHistory
  | setMetadata (o : ChatOrchestrator) (md : DatabaseMetadata) :
      Reachable o → Reachable (o.setMetadata md)

/-! ### LLM client wire formatting (`src/orchestration/llm-client.ts`)

`OpenAIClient.chat` and `GroqClient.chat` format the tool catalog for the
function-calling API; only name, description and parameters are sent. -/

/-- The wire shape of one formatted tool. -/
structure FormattedTool where
  type : String
  name : String
  description : String
  parameters : ToolParameters
deriving Repr, DecidableEq

/-- `tools.map((tool) => (\x7btype: "function", function: \x7b...\x7d\x7d))`. -/
def formatToolsForLLM (tools : List MCPTool) : List FormattedTool :=
  tools.map fun tool =>
    { type := "function", name := tool.name, description := tool.description,
      parameters := tool.parameters }

/-- The outward-visible projection of one registered tool. -/
def toolPublic (t : MCPTool) : String × String × ToolParameters :=
  (t.name, t.description, t.parameters)

/-! ### Concrete test fixtures (parsers, providers, environments used to
instantiate the theorems below on closed inputs) -/

/-- A parser capability that rejects every input. -/
def failParser : SQLParser := fun _ => Except.error "Expected SELECT"

/-- A parser capability that knows exactly the statement
`DELETE FROM customers`. -/
def deleteParser : SQLParser := fun s =>
  if s = "DELETE FROM customers" then Except.ok (Sum.inl { type := some "delete" })
  else Except.error "syntax error"

/-- A parser capability that parses every input as the two-statement batch
`UPDATE …; SELECT …`. -/
def updateSelectParser : SQLParser := fun _ =>
  Except.ok (Sum.inr [{ type := some "update" }, { type := some "select" }])

/-- A parser capability that knows exactly the statement `SELECT 1`. -/
def selectParser : SQLParser := fun s =>
  if s = "SELECT 1" then Except.ok (Sum.inl { type := some "select" })
  else Except.error "syntax error"

/-- A provider whose queries succeed with an empty result set. -/
def okProvider : IDatabaseProvider :=
  { listTables := fun _ => Except.ok []
    describeTable := fun _ _ => Except.error "not found"
    runQuery := fun _ => Except.ok { rows := [], rowCount := 0, fields := [] } }

/-- A provider identical to `okProvider` except that `runQuery` fails. -/
def failQueryProvider : IDatabaseProvider :=
  { listTables := fun _ => Except.ok []
    describeTable := fun _ _ => Except.error "not found"
    runQuery := fun _ => Except.error "boom" }

/-- Registry over `okProvider`. -/
def regOk : MCPToolRegistry := MCPToolRegistry.create selectParser okProvider

/-- Registry over `failQueryProvider`. -/
def regFail : MCPToolRegistry := MCPToolRegistry.create selectParser failQueryProvider

/-- An LLM client capability that always requests one more tool call. -/
def loopingClient : List Message → List MCPTool → Except String Message :=
  fun _ _ =>
    Except.ok
      { role := Role.assistant, content := "",
        tool_calls := some [{ id := "call-1", function := { name := "run_sql", arguments := "\x7b\x7d" } }] }

/-- An orchestrator environment over `loopingClient` whose JSON capabilities
are plain markers. -/
def loopingEnv : OrchestratorEnv :=
  { client := loopingClient
    parseArgs := fun _ => Except.ok { sql := "SELECT 1" }
    serializeResult := fun _ => "result"
    serializeError := fun e => "error:" ++ e
    decodeResponse := fun _ => none }

/-- An environment whose tool-argument decoding always fails. -/
def badArgsEnv : OrchestratorEnv :=
  { loopingEnv with parseArgs := fun _ => Except.error "Unexpected token" }

/-- A fresh orchestrator over `regOk` with no schema metadata. -/
def orchOk : ChatOrchestrator := ChatOrchestrator.create regOk

/-! ## Theorems

### Preservation lemmas about `analyzeStatement` -/

theorem analyzeStatement_warnings (stmt : Stmt) (r : SQLAnalysis) :
    (analyzeStatement stmt r).warnings = r.warnings := by
  unfold analyzeStatement
  cases stmt.type <;> simp

theorem analyzeStatement_isValid (stmt : Stmt) (r : SQLAnalysis) :
    (analyzeStatement stmt r).isValid = r.isValid := by
  unfold analyzeStatement
  cases stmt.type <;> simp

theorem analyzeStatement_errors (stmt : Stmt) (r : SQLAnalysis) :
    (analyzeStatement stmt r).errors = r.errors := by
  unfold analyzeStatement
  cases stmt.type <;> simp

theorem foldl_analyzeStatement_warnings (l : List Stmt) (r : SQLAnalysis) :
    (l.foldl (fun r s => analyzeStatement s r) r).warnings = r.warnings := by
  induction l generalizing r with
  | nil => rfl
  | cons x xs ih => simpa [analyzeStatement_warnings] using ih (analyzeStatement x r)

theorem foldl_analyzeStatement_type (l : List Stmt) (r : SQLAnalysis)
    (last : Stmt) (t : String) (hlast : l.getLast? = some last)
    (ht : last.type = some t) :
    (l.foldl (fun r s => analyzeStatement s r) r).type = jsToLowerCase t := by
  induction l generalizing r with
  | nil => simp at hlast
  | cons x xs ih =>
    cases xs with
    | nil =>
      have hx : x = last := by simpa using hlast
      subst hx
      simp [List.foldl, analyzeStatement, ht]
    | cons y ys =>
      have : (y :: ys).getLast? = some last := by
        simpa [List.getLast?_cons_cons] using hlast
      simpa [List.foldl] using ih (analyzeStatement x r) this

theorem analyzeStatement_isReadOnly_mono (stmt : Stmt) (r : SQLAnalysis)
    (h : r.isReadOnly = false) : (analyzeStatement stmt r).isReadOnly = false := by
  unfold analyzeStatement
  cases stmt.type with
  | none => exact h
  | some ty => simp only; split <;> simp [h]

theorem foldl_analyzeStatement_isReadOnly_mono (l : List Stmt) (r : SQLAnalysis)
    (h : r.isReadOnly = false) :
    (l.foldl (fun r s => analyzeStatement s r) r).isReadOnly = false := by
  induction l generalizing r with
  | nil => exact h
  | cons x xs ih =>
    simpa [List.foldl] using ih _ (analyzeStatement_isReadOnly_mono x r h)

theorem foldl_analyzeStatement_write (l : List Stmt) (r : SQLAnalysis)
    (s : Stmt) (hs : s ∈ l) (t : String) (ht : s.type = some t)
    (hw : jsToLowerCase t ∈ writeOperations) :
    (l.foldl (fun r s => analyzeStatement s r) r).isReadOnly = false := by
  induction l generalizing r with
  | nil => cases hs
  | cons x xs ih =>
    rcases List.mem_cons.mp hs with rfl | hmem
    · rw [List.foldl_cons]
      apply foldl_analyzeStatement_isReadOnly_mono
      unfold analyzeStatement
      rw [ht]
      simp [List.elem_eq_true_of_mem hw, List.contains]
      exact fun hcon => absurd hw hcon
    · simpa [List.foldl] using ih (analyzeStatement x r) hmem

/-! ### Claim C5 -/

/-- C5: `analyze` never raises (it is a total function by construction);
when the parser capability fails on the input, it returns `isValid = false`
with the recorded parse error and the defaults `isReadOnly = true`,
`type = "unknown"`, an empty table list and no warnings. -/
theorem analyze_parse_failure_encodes_data (parser : SQLParser) (sql msg : String)
    (h : parser sql = Except.error msg) :
    analyze parser sql =
      { isValid := false, isReadOnly := true, type := "unknown", tables := [],
        errors := ["Parse error: " ++ msg], warnings := [] } := by
  simp [analyze, initialAnalysis, h]

/-- Witness for C5 at the concrete failing parser and input. -/
theorem analyze_parse_failure_encodes_data_witness :
    failParser "garbage(" = Except.error "Expected SELECT" ∧
    analyze failParser "garbage(" =
      { isValid := false, isReadOnly := true, type := "unknown", tables := [],
        errors := ["Parse error: Expected SELECT"], warnings := [] } :=
  ⟨rfl, analyze_parse_failure_encodes_data failParser "garbage(" "Expected SELECT" rfl⟩

/-! ### Claim C6 -/

/-- C6: when the parse yields multiple statements, `analyze` records the
`Multiple statements detected` warning (and nothing else touches the
warnings), folds `analyzeStatement` over the statements in array order, and
the resulting `type` is the lowercase kind of the last statement analyzed
(its classification overrides the earlier ones). -/
theorem analyze_multiple_statements_last_type (parser : SQLParser) (sql : String)
    (stmts : List Stmt) (h : parser sql = Except.ok (Sum.inr stmts))
    (last : Stmt) (t : String) (hlast : stmts.getLast? = some last)
    (ht : last.type = some t) :
    (analyze parser sql).warnings = ["Multiple statements detected"] ∧
    analyze parser sql =
      stmts.foldl (fun r s => analyzeStatement s r)
        { initialAnalysis with
            isValid := true, warnings := ["Multiple statements detected"] } ∧
    (analyze parser sql).type = jsToLowerCase t := by
  have hdef : analyze parser sql =
      stmts.foldl (fun r s => analyzeStatement s r)
        { initialAnalysis with
            isValid := true, warnings := ["Multiple statements detected"] } := by
    simp [analyze, h, initialAnalysis]
  refine ⟨?_, hdef, ?_⟩
  · rw [hdef, foldl_analyzeStatement_warnings]
  · rw [hdef]
    exact foldl_analyzeStatement_type stmts _ last t hlast ht

/-- Witness for C6 on the two-statement batch `UPDATE …; SELECT …`:
the final classification is `select`. -/
theorem analyze_multiple_statements_last_type_witness :
    (analyze updateSelectParser "UPDATE t SET x=1; SELECT * FROM t").warnings =
      ["Multiple statements detected"] ∧
    (analyze updateSelectParser "UPDATE t SET x=1; SELECT * FROM t").type = "select" := by
  have h := analyze_multiple_statements_last_type updateSelectParser
    "UPDATE t SET x=1; SELECT * FROM t"
    [{ type := some "update" }, { type := some "select" }] rfl
    { type := some "select" } "select" rfl rfl
  exact ⟨h.1, by rw [h.2.2]; decide⟩

/-! ### Claim C10 -/

/-- C10: for a multi-statement parse, one write-kind statement anywhere in
the batch forces `isReadOnly = false`, even when the last statement (which
alone determines `type`) is read-only; `analyzeStatement` can only lower the
flag, never reset it to `true`. -/
theorem analyze_isReadOnly_lowered_only (parser : SQLParser) (sql : String)
    (stmts : List Stmt) (h : parser sql = Except.ok (Sum.inr stmts))
    (s : Stmt) (hs : s ∈ stmts) (t : String) (ht : s.type = some t)
    (hw : jsToLowerCase t ∈ writeOperations) :
    (analyze parser sql).isReadOnly = false ∧
    (∀ stmt r, r.isReadOnly = false → (analyzeStatement stmt r).isReadOnly = false) := by
  constructor
  · have hdef : analyze parser sql =
        stmts.foldl (fun r s => analyzeStatement s r)
          { initialAnalysis with
              isValid := true, warnings := ["Multiple statements detected"] } := by
      simp [analyze, h, initialAnalysis]
    rw [hdef]
    exact foldl_analyzeStatement_write stmts _ s hs t ht hw
  · exact analyzeStatement_isReadOnly_mono

/-- Witness for C10: in `UPDATE …; SELECT …` the last statement is a read-only
`select`, yet the analysis is not read-only. -/
theorem analyze_isReadOnly_lowered_only_witness :
    (analyze updateSelectParser "UPDATE t SET x=1; SELECT * FROM t").type = "select" ∧
    (analyze updateSelectParser "UPDATE t SET x=1; SELECT * FROM t").isReadOnly = false := by
  have h := analyze_isReadOnly_lowered_only updateSelectParser
    "UPDATE t SET x=1; SELECT * FROM t"
    [{ type := some "update" }, { type := some "select" }] rfl
    { type := some "update" } (by simp) "update" rfl (by decide)
  exact ⟨by decide, h.1⟩

/-! ### Claim C7 -/

/-- C7: `addLimit` is the identity when the trimmed text already contains a
`LIMIT <number>` clause (case-insensitive, anywhere); otherwise, when the
trimmed text starts with `SELECT` (case-insensitive), it returns the text
with ` LIMIT <limit>` appended; any other statement shape is returned
unchanged — together with the three concrete examples. -/
theorem addLimit_spec (sql : String) (limit : Nat) :
    (hasLimitClause (jsTrim sql).data = true → addLimit sql limit = sql) ∧
    (hasLimitClause (jsTrim sql).data = false →
      startsWithSelectCI (jsTrim sql).data = true →
      addLimit sql limit = jsTrim sql ++ " LIMIT " ++ toString limit) ∧
    (hasLimitClause (jsTrim sql).data = false →
      startsWithSelectCI (jsTrim sql).data = false →
      addLimit sql limit = sql) ∧
    addLimit "SELECT * FROM t" 1000 = "SELECT * FROM t LIMIT 1000" ∧
    addLimit "SELECT * FROM t LIMIT 5" = "SELECT * FROM t LIMIT 5" ∧
    addLimit "UPDATE t SET x=1" = "UPDATE t SET x=1" := by
  refine ⟨fun h => ?_, fun h hsel => ?_, fun h hsel => ?_, ?_, ?_, ?_⟩
  · simp [addLimit, h]
  · simp [addLimit, h, hsel]
  · simp [addLimit, h, hsel]
  · decide
  · decide
  · decide

/-- Witness for C7 at a concrete non-trivial input (leading whitespace,
lowercase keyword). -/
theorem addLimit_spec_witness :
    hasLimitClause (jsTrim "  select id FROM t ").data = false ∧
    startsWithSelectCI (jsTrim "  select id FROM t ").data = true ∧
    addLimit "  select id FROM t " 25 =
      jsTrim "  select id FROM t " ++ " LIMIT " ++ toString 25 := by
  refine ⟨by decide, by decide, ?_⟩
  exact (addLimit_spec "  select id FROM t " 25).2.1 (by decide) (by decide)

/-! ### Claim C2 -/

/-- C2: `validateSafe` reports unsafe exactly when the analysis is invalid,
or read-only mode is on and the analysis is not read-only, or the raw text
matches the stacked-statement pattern; each unsafe case carries its reason;
`SELECT 1; DROP TABLE customers` is unsafe in both modes, and
`DELETE FROM customers` (for a parser that classifies it as a `delete`) is
safe exactly when read-only mode is off. -/
theorem validateSafe_unsafe_conditions (parser : SQLParser) (sql : String)
    (ro : Bool) (delStmt : Stmt)
    (hdel : parser "DELETE FROM customers" = Except.ok (Sum.inl delStmt))
    (hty : delStmt.type = some "delete") :
    ((validateSafe parser sql ro).safe = false ↔
      ((analyze parser sql).isValid = false ∨
       (ro = true ∧ (analyze parser sql).isReadOnly = false) ∨
       hasDangerousPattern sql.data = true)) ∧
    ((analyze parser sql).isValid = false →
      validateSafe parser sql ro =
        { safe := false,
          reason := some (String.intercalate "; " (analyze parser sql).errors) }) ∧
    ((analyze parser sql).isValid = true → ro = true →
      (analyze parser sql).isReadOnly = false →
      validateSafe parser sql ro =
        { safe := false,
          reason := some "Write operations not allowed in read-only mode" }) ∧
    ((analyze parser sql).isValid = true →
      (ro = true → (analyze parser sql).isReadOnly = true) →
      hasDangerousPattern sql.data = true →
      validateSafe parser sql ro =
        { safe := false, reason := some "Potentially dangerous operation detected" }) ∧
    (validateSafe parser "SELECT 1; DROP TABLE customers" ro).safe = false ∧
    (validateSafe parser "DELETE FROM customers" false).safe = true ∧
    (validateSafe parser "DELETE FROM customers" true).safe = false := by
  have hdelA : analyze parser "DELETE FROM customers" =
      analyzeStatement delStmt { initialAnalysis with isValid := true } := by
    simp [analyze, hdel]
  have hv : (analyze parser "DELETE FROM customers").isValid = true := by
    rw [hdelA, analyzeStatement_isValid]
  have hr : (analyze parser "DELETE FROM customers").isReadOnly = false := by
    rw [hdelA]
    unfold analyzeStatement
    rw [hty]
    have hc : writeOperations.contains (jsToLowerCase "delete") = true := by decide
    simp [hc]
    exact fun hcon =>
      absurd (by decide : jsToLowerCase "delete" ∈ writeOperations) hcon
  have hdNo : hasDangerousPattern "DELETE FROM customers".data = false := by decide
  have hdYes : hasDangerousPattern "SELECT 1; DROP TABLE customers".data = true := by
    decide
  refine ⟨?_, ?_, ?_, ?_, ?_, ?_, ?_⟩
  · unfold validateSafe
    cases hva : (analyze parser sql).isValid <;>
      cases hro : ro <;>
        cases hra : (analyze parser sql).isReadOnly <;>
          cases hda : hasDangerousPattern sql.data <;>
            simp [hva, hro, hra, hda]
  · intro hva
    unfold validateSafe
    simp [hva]
  · intro hva hro hra
    unfold validateSafe
    simp [hva, hro, hra]
  · intro hva hgate hda
    unfold validateSafe
    cases hro : ro with
    | false => simp [hva, hda]
    | true => simp [hva, hda, hgate hro]
  · unfold validateSafe
    cases hva : (analyze parser "SELECT 1; DROP TABLE customers").isValid <;>
      cases hro : ro <;>
        cases hra : (analyze parser "SELECT 1; DROP TABLE customers").isReadOnly <;>
          simp [hva, hro, hra, hdYes]
  · unfold validateSafe
    simp [hv, hdNo]
  · unfold validateSafe
    simp [hv, hr]

/-- Witness for C2 at the concrete `deleteParser`. -/
theorem validateSafe_unsafe_conditions_witness :
    (validateSafe deleteParser "DELETE FROM customers" false).safe = true ∧
    (validateSafe deleteParser "DELETE FROM customers" true).safe = false ∧
    (validateSafe deleteParser "SELECT 1; DROP TABLE customers" true).safe = false := by
  have h1 := validateSafe_unsafe_conditions deleteParser "x" false
    { type := some "delete" } rfl rfl
  have h2 := validateSafe_unsafe_conditions deleteParser "x" true
    { type := some "delete" } rfl rfl
  exact ⟨h1.2.2.2.2.2.1, h2.2.2.2.2.2.2, h2.2.2.2.2.1⟩

/-! ### Claim C1 -/

/-- C1: whenever `validateSafe` reports unsafe under the registry's current
read-only mode, the `run_sql` handler fails with the safety violation
(`SQL validation failed: <reason>`, re-signalled by `executeTool` as a tool
execution failure) and performs no provider invocation at all — in
particular `runQuery` is never reached. -/
theorem run_sql_unsafe_never_queries (parser : SQLParser)
    (provider : IDatabaseProvider) (ro : Bool) (params : ToolParams)
    (h : (validateSafe parser params.sql ro).safe = false) :
    runSqlHandler parser provider ro params =
      (Except.error ("SQL validation failed: " ++
        (validateSafe parser params.sql ro).reason.getD "undefined"), []) ∧
    (∀ md : Option DatabaseMetadata,
      MCPToolRegistry.executeTool
        ⟨registerTools parser provider, { readOnlyMode := ro, metadata := md }⟩
        "run_sql" params =
        (Except.error ("Tool execution failed: SQL validation failed: " ++
          (validateSafe parser params.sql ro).reason.getD "undefined"), [])) := by
  have h1 : runSqlHandler parser provider ro params =
      (Except.error ("SQL validation failed: " ++
        (validateSafe parser params.sql ro).reason.getD "undefined"), []) := by
    unfold runSqlHandler
    simp [h]
  refine ⟨h1, fun md => ?_⟩
  have hfind :
      MCPToolRegistry.getTool
        ⟨registerTools parser provider, { readOnlyMode := ro, metadata := md }⟩
        "run_sql" =
      (registerTools parser provider).getLast? := rfl
  unfold MCPToolRegistry.executeTool
  rw [hfind]
  simp only [registerTools, List.getLast?]
  have hlit : ("Tool execution failed: " ++ "SQL validation failed: " : String) =
      "Tool execution failed: SQL validation failed: " := rfl
  simp [h1, ← String.append_assoc, hlit]

/-- Witness for C1: a parser that rejects the input makes `validateSafe`
unsafe, and the handler fails without touching the provider. -/
theorem run_sql_unsafe_never_queries_witness :
    (validateSafe failParser "DROP TABLE x" true).safe = false ∧
    runSqlHandler failParser okProvider true { sql := "DROP TABLE x" } =
      (Except.error "SQL validation failed: Parse error: Expected SELECT", []) := by
  have h := run_sql_unsafe_never_queries failParser okProvider true
    { sql := "DROP TABLE x" } (by decide)
  refine ⟨by decide, ?_⟩
  rw [h.1]
  exact congrArg
    (fun s => (Except.error ("SQL validation failed: " ++ s), ([] : List ProviderCall)))
    (by decide :
      (validateSafe failParser "DROP TABLE x" true).reason.getD "undefined" =
        "Parse error: Expected SELECT")

/-! ### Lemmas about the orchestration loop -/

theorem chatLoop_allToolCalls (env : OrchestratorEnv) (reg : MCPToolRegistry)
    (hclient : ∀ msgs tools, ∃ m tc tcs,
      env.client msgs tools = Except.ok m ∧ m.tool_calls = some (tc :: tcs)) :
    ∀ (fuel : Nat) (msgs : List Message) (calls : Nat),
      (chatLoop env reg fuel msgs calls).result =
        Except.error "Max iterations reached without final response" ∧
      (chatLoop env reg fuel msgs calls).llmCalls = calls + fuel := by
  intro fuel
  induction fuel with
  | zero => exact fun msgs calls => ⟨rfl, rfl⟩
  | succ n ih =>
    intro msgs calls
    obtain ⟨m, tc, tcs, hm, htc⟩ := hclient msgs reg.getTools
    have hstep : chatLoop env reg (n + 1) msgs calls =
        chatLoop env reg n
          ((msgs ++ [m]) ++ (tc :: tcs).map (dispatchToolCall env reg)) (calls + 1) := by
      simp only [chatLoop, hm, htc]
    rw [hstep]
    obtain ⟨h1, h2⟩ := ih _ (calls + 1)
    exact ⟨h1, by rw [h2]; omega⟩

theorem chatLoop_llmCalls_le (env : OrchestratorEnv) (reg : MCPToolRegistry) :
    ∀ (fuel : Nat) (msgs : List Message) (calls : Nat),
      (chatLoop env reg fuel msgs calls).llmCalls ≤ calls + fuel := by
  intro fuel
  induction fuel with
  | zero => intro msgs calls; simp [chatLoop]
  | succ n ih =>
    intro msgs calls
    cases hc : env.client msgs reg.getTools with
    | error e => simp only [chatLoop, hc]; omega
    | ok m =>
      cases htc : m.tool_calls with
      | none => simp only [chatLoop, hc, htc]; omega
      | some l =>
        cases l with
        | nil => simp only [chatLoop, hc, htc]; omega
        | cons tc tcs =>
          have hstep : chatLoop env reg (n + 1) msgs calls =
              chatLoop env reg n
                ((msgs ++ [m]) ++ (tc :: tcs).map (dispatchToolCall env reg))
                (calls + 1) := by
            simp only [chatLoop, hc, htc]
          rw [hstep]
          exact le_trans (ih _ (calls + 1)) (by omega)

theorem chatLoop_messages_prefix (env : OrchestratorEnv) (reg : MCPToolRegistry) :
    ∀ (fuel : Nat) (msgs : List Message) (calls : Nat),
      ∃ suffix, (chatLoop env reg fuel msgs calls).messages = msgs ++ suffix := by
  intro fuel
  induction fuel with
  | zero => exact fun msgs calls => ⟨[], by simp [chatLoop]⟩
  | succ n ih =>
    intro msgs calls
    cases hc : env.client msgs reg.getTools with
    | error e => exact ⟨[], by simp [chatLoop, hc]⟩
    | ok m =>
      cases htc : m.tool_calls with
      | none => exact ⟨[m], by simp [chatLoop, hc, htc]⟩
      | some l =>
        cases l with
        | nil => exact ⟨[m], by simp [chatLoop, hc, htc]⟩
        | cons tc tcs =>
          obtain ⟨s, hs⟩ :=
            ih ((msgs ++ [m]) ++ (tc :: tcs).map (dispatchToolCall env reg)) (calls + 1)
          refine ⟨[m] ++ (tc :: tcs).map (dispatchToolCall env reg) ++ s, ?_⟩
          have hstep : chatLoop env reg (n + 1) msgs calls =
              chatLoop env reg n
                ((msgs ++ [m]) ++ (tc :: tcs).map (dispatchToolCall env reg))
                (calls + 1) := by
            simp only [chatLoop, hc, htc]
          rw [hstep, hs]
          simp

theorem chatLoop_result_shape (env : OrchestratorEnv) (reg : MCPToolRegistry)
    (hclient : ∀ msgs tools, ∃ m, env.client msgs tools = Except.ok m) :
    ∀ (fuel : Nat) (msgs : List Message) (calls : Nat),
      (chatLoop env reg fuel msgs calls).result =
          Except.error "Max iterations reached without final response" ∨
        ∃ r, (chatLoop env reg fuel msgs calls).result = Except.ok r := by
  intro fuel
  induction fuel with
  | zero => exact fun msgs calls => Or.inl rfl
  | succ n ih =>
    intro msgs calls
    obtain ⟨m, hm⟩ := hclient msgs reg.getTools
    cases htc : m.tool_calls with
    | none =>
      exact Or.inr ⟨parseResponse env.decodeResponse m.content,
        by simp only [chatLoop, hm, htc]⟩
    | some l =>
      cases l with
      | nil =>
        exact Or.inr ⟨parseResponse env.decodeResponse m.content,
          by simp only [chatLoop, hm, htc]⟩
      | cons tc tcs =>
        have hstep : chatLoop env reg (n + 1) msgs calls =
            chatLoop env reg n
              ((msgs ++ [m]) ++ (tc :: tcs).map (dispatchToolCall env reg))
              (calls + 1) := by
          simp only [chatLoop, hm, htc]
        rw [hstep]
        exact ih _ (calls + 1)

/-! ### Claim C3 -/

/-- C3: against an LLM client that always returns an assistant message
carrying at least one tool call, `chat` fails with
`Max iterations reached without final response` after exactly 5 LLM
round-trips — and no `chat` call ever performs more than 5 LLM client
calls. -/
theorem chat_exactly_five_llm_calls (env : OrchestratorEnv)
    (o : ChatOrchestrator) (u : String)
    (hclient : ∀ msgs tools, ∃ m tc tcs,
      env.client msgs tools = Except.ok m ∧ m.tool_calls = some (tc :: tcs)) :
    (ChatOrchestrator.chat env o u).1 =
      Except.error "Max iterations reached without final response" ∧
    (ChatOrchestrator.chat env o u).2.2 = 5 ∧
    (∀ (env' : OrchestratorEnv) (o' : ChatOrchestrator) (u' : String),
      (ChatOrchestrator.chat env' o' u').2.2 ≤ 5) := by
  have h := chatLoop_allToolCalls env o.toolRegistry hclient maxIterations
    (o.messages ++ [{ role := Role.user, content := u }]) 0
  refine ⟨?_, ?_, ?_⟩
  · simpa [ChatOrchestrator.chat] using h.1
  · simpa [ChatOrchestrator.chat, maxIterations] using h.2
  · intro env' o' u'
    have hle := chatLoop_llmCalls_le env' o'.toolRegistry maxIterations
      (o'.messages ++ [{ role := Role.user, content := u' }]) 0
    simpa [ChatOrchestrator.chat, maxIterations] using hle

/-- Witness for C3: the concrete always-tool-calling client makes a fresh
orchestrator fail after exactly 5 round-trips. -/
theorem chat_exactly_five_llm_calls_witness :
    (ChatOrchestrator.chat loopingEnv orchOk "show tables").1 =
      Except.error "Max iterations reached without final response" ∧
    (ChatOrchestrator.chat loopingEnv orchOk "show tables").2.2 = 5 := by
  have h := chat_exactly_five_llm_calls loopingEnv orchOk "show tables"
    (fun msgs tools =>
      ⟨{ role := Role.assistant, content := "",
         tool_calls :=
           some [{ id := "call-1",
                   function := { name := "run_sql", arguments := "\x7b\x7d" } }] },
       { id := "call-1", function := { name := "run_sql", arguments := "\x7b\x7d" } },
       [], rfl, rfl⟩)
  exact ⟨h.1, h.2.1⟩

/-! ### Claim C4 -/

/-- C4: the loop dispatches the tool calls of a reply in array order; a
failure to decode the arguments or to execute the tool is turned into a
`tool`-role message whose content is the serialized `\x7berror: message\x7d`
object with the originating `tool_call_id` and name, instead of raising; and
with any client that itself never fails, `chat` terminates in a parsed
response or in the max-iterations failure — tool failures never escape. -/
theorem chat_tool_failures_recovered (env : OrchestratorEnv)
    (reg : MCPToolRegistry) :
    (∀ (tc : ToolCall) (e : String),
      env.parseArgs tc.function.arguments = Except.error e →
      dispatchToolCall env reg tc =
        { role := Role.tool, content := env.serializeError e,
          tool_call_id := some tc.id, name := some tc.function.name }) ∧
    (∀ (tc : ToolCall) (args : ToolParams) (e : String),
      env.parseArgs tc.function.arguments = Except.ok args →
      (reg.executeTool tc.function.name args).fst = Except.error e →
      dispatchToolCall env reg tc =
        { role := Role.tool, content := env.serializeError e,
          tool_call_id := some tc.id, name := some tc.function.name }) ∧
    (∀ (fuel : Nat) (msgs : List Message) (calls : Nat) (m : Message)
        (tc : ToolCall) (tcs : List ToolCall),
      env.client msgs reg.getTools = Except.ok m →
      m.tool_calls = some (tc :: tcs) →
      chatLoop env reg (fuel + 1) msgs calls =
        chatLoop env reg fuel
          ((msgs ++ [m]) ++ (tc :: tcs).map (dispatchToolCall env reg))
          (calls + 1)) ∧
    (∀ (o : ChatOrchestrator) (u : String), o.toolRegistry = reg →
      (∀ msgs tools, ∃ m, env.client msgs tools = Except.ok m) →
      (ChatOrchestrator.chat env o u).1 =
          Except.error "Max iterations reached without final response" ∨
        ∃ r, (ChatOrchestrator.chat env o u).1 = Except.ok r) := by
  refine ⟨?_, ?_, ?_, ?_⟩
  · intro tc e h
    simp [dispatchToolCall, h]
  · intro tc args e hargs hexec
    simp [dispatchToolCall, hargs, hexec]
  · intro fuel msgs calls m tc tcs hm htc
    simp only [chatLoop, hm, htc]
  · intro o u hreg hclient
    subst hreg
    have h := chatLoop_result_shape env o.toolRegistry hclient maxIterations
      (o.messages ++ [{ role := Role.user, content := u }]) 0
    simpa [ChatOrchestrator.chat] using h

/-- Witness for C4: an environment whose argument decoding always fails
still yields the error-shaped tool message, and `chat` with its
always-succeeding client ends in a result or the max-iterations failure. -/
theorem chat_tool_failures_recovered_witness :
    dispatchToolCall badArgsEnv regOk
        { id := "call-9", function := { name := "run_sql", arguments := "not json" } } =
      { role := Role.tool, content := "error:Unexpected token",
        tool_call_id := some "call-9", name := some "run_sql" } ∧
    ((ChatOrchestrator.chat badArgsEnv orchOk "q").1 =
        Except.error "Max iterations reached without final response" ∨
      ∃ r, (ChatOrchestrator.chat badArgsEnv orchOk "q").1 = Except.ok r) := by
  have h := chat_tool_failures_recovered badArgsEnv regOk
  refine ⟨?_, ?_⟩
  · exact h.1 { id := "call-9",
                function := { name := "run_sql", arguments := "not json" } }
      "Unexpected token" rfl
  · exact h.2.2.2 orchOk "q" rfl (fun msgs tools =>
      ⟨{ role := Role.assistant, content := "",
         tool_calls :=
           some [{ id := "call-1",
                   function := { name := "run_sql", arguments := "\x7b\x7d" } }] }, rfl⟩)

/-! ### Claim C8 -/

/-- C8: the conversation history always has the system message first — it is
seeded with exactly one system message at construction, `setMetadata` and
`clearHistory` reset it to exactly one freshly built system message, `chat`
only appends, and every reachable orchestrator state has the system message
(carrying the current system prompt) as its head. -/
theorem history_first_is_system :
    (∀ (reg : MCPToolRegistry) (md : Option DatabaseMetadata),
      (ChatOrchestrator.create reg md).messages =
        [{ role := Role.system,
           content := (ChatOrchestrator.create reg md).systemPrompt }]) ∧
    (∀ (o : ChatOrchestrator) (md : DatabaseMetadata),
      (o.setMetadata md).messages =
        [{ role := Role.system, content := (o.setMetadata md).systemPrompt }]) ∧
    (∀ o : ChatOrchestrator,
      o.clearHistory.messages =
        [{ role := Role.system, content := o.clearHistory.systemPrompt }]) ∧
    (∀ (env : OrchestratorEnv) (o : ChatOrchestrator) (u : String),
      ∃ suffix,
        (ChatOrchestrator.chat env o u).2.1.messages = o.messages ++ suffix) ∧
    (∀ o : ChatOrchestrator, Reachable o →
      o.messages.head? = some { role := Role.system, content := o.systemPrompt }) := by
  have hinit : ∀ o : ChatOrchestrator,
      (initializeSystemPrompt o).messages =
        [{ role := Role.system, content := (initializeSystemPrompt o).systemPrompt }] := by
    intro o
    rfl
  have hchat : ∀ (env : OrchestratorEnv) (o : ChatOrchestrator) (u : String),
      ∃ suffix,
        (ChatOrchestrator.chat env o u).2.1.messages = o.messages ++ suffix := by
    intro env o u
    obtain ⟨s, hs⟩ := chatLoop_messages_prefix env o.toolRegistry maxIterations
      (o.messages ++ [{ role := Role.user, content := u }]) 0
    refine ⟨{ role := Role.user, content := u } :: s, ?_⟩
    simpa [ChatOrchestrator.chat] using hs
  have hchatPrompt : ∀ (env : OrchestratorEnv) (o : ChatOrchestrator) (u : String),
      (ChatOrchestrator.chat env o u).2.1.systemPrompt = o.systemPrompt := by
    intro env o u
    rfl
  refine ⟨fun reg md => hinit _, fun o md => hinit _, fun o => hinit _, hchat, ?_⟩
  have hinitHead : ∀ o : ChatOrchestrator,
      (initializeSystemPrompt o).messages.head? =
        some { role := Role.system,
               content := (initializeSystemPrompt o).systemPrompt } :=
    fun o => rfl
  intro o h
  induction h with
  | create reg md => exact hinitHead { toolRegistry := reg, metadata := md }
  | chat env o' u' hr ih =>
    obtain ⟨suffix, hs⟩ := hchat env o' u'
    rw [hs, hchatPrompt]
    cases hm : o'.messages with
    | nil => rw [hm] at ih; simp at ih
    | cons a l =>
      rw [hm] at ih
      simpa using ih
  | clearHistory o' hr ih => exact hinitHead o'
  | setMetadata o' md hr ih =>
    exact hinitHead { o' with metadata := some md }

/-- Witness for C8 at a concrete reachable orchestrator. -/
theorem history_first_is_system_witness :
    orchOk.messages.head? =
      some { role := Role.system, content := orchOk.systemPrompt } :=
  history_first_is_system.2.2.2.2 orchOk (Reachable.create regOk none)

/-! ### Claim C9 -/

/-- C9 counterexample: two registries that differ only in the provider's
`runQuery` capability have identical public projections (name, description,
parameter schema) for every registered tool, yet their `getTools` outputs
differ — the handler closures are part of what `getTools` returns, so
handlers are exposed outward through `getTools`. -/
theorem getTools_exposes_handlers_counterexample :
    regOk.getTools.map toolPublic = regFail.getTools.map toolPublic ∧
    regOk.getTools ≠ regFail.getTools := by
  refine ⟨rfl, fun h => ?_⟩
  have h1 : (regOk.getTools.getLast?.map fun t =>
      match (t.handler { readOnlyMode := true, metadata := none }
          { sql := "SELECT 1" }).fst with
      | Except.ok _ => true
      | Except.error _ => false) = some true := by decide
  have h2 : (regFail.getTools.getLast?.map fun t =>
      match (t.handler { readOnlyMode := true, metadata := none }
          { sql := "SELECT 1" }).fst with
      | Except.ok _ => true
      | Except.error _ => false) = some false := by decide
  rw [h] at h1
  exact absurd (h1.symm.trans h2) (by decide)

/-- C9 amended: `getTools` returns the registered tool records themselves,
handler capabilities included; it is the LLM-client wire formatting that
exposes only name, description and parameter schema — the formatted catalog
depends only on the public projection of the tools. -/
theorem getTools_full_records_format_public (r : MCPToolRegistry)
    (tools1 tools2 : List MCPTool)
    (hpub : tools1.map toolPublic = tools2.map toolPublic) :
    MCPToolRegistry.getTools r = r.tools ∧
    formatToolsForLLM tools1 = formatToolsForLLM tools2 := by
  refine ⟨rfl, ?_⟩
  have key : ∀ ts : List MCPTool,
      formatToolsForLLM ts =
        (ts.map toolPublic).map fun p =>
          { type := "function", name := p.1, description := p.2.1,
            parameters := p.2.2 } := by
    intro ts
    rw [formatToolsForLLM, List.map_map]
    rfl
  rw [key, key, hpub]

/-- Witness for the amended C9: the two fixture registries produce the same
wire-formatted catalog. -/
theorem getTools_full_records_format_public_witness :
    formatToolsForLLM regOk.getTools = formatToolsForLLM regFail.getTools :=
  (getTools_full_records_format_public regOk regOk.getTools regFail.getTools rfl).2

end DatabaseMCP
